import Mathlib

/-!
Verification of the explicit-secrecy taint analyzer (`src/analysis.py`).

This file shallowly embeds the analyzer: the taint lattice (`TaintStatus`,
`TaintStatus.lub`), the abstract state (`State` with its operations), the
expression evaluator (`eval`), the statement transformer
(`state_transformer`), the round-robin fixpoint solver
(`round_robin_iteration`, modelled with explicit fuel), the final
finding-collection pass of `run_analysis`, and the docstring directive parser
(`get_public_variables_from_docstring`).

Python dictionaries are modelled as association lists with in-place
replacement on key collision (`dinsert`), `dict.update` as `dupdate` (the
argument's entries win), and Python `dict`/`set`/dataclass equality as the
extensional `dExtEq` / `Finset` equality inside `State.pyEq`.  Python's
dynamic typing matters: `eval` returns `TaintStatus`, a heap-location string,
or `None`, and all three can end up stored inside `heap_locations`, so the
stored value type is `Value`.  Exceptions (`KeyError`, `NotImplementedError`)
are modelled with `Except PyErr`.
-/

set_option autoImplicit false

/-- The two-point security lattice of `analysis.py` (`class TaintStatus`). -/
inductive TaintStatus where
  | TAINTED
  | UNTAINTED
deriving DecidableEq, Repr

/-- A Python runtime value flowing through the analysis: a `TaintStatus`, the
Python constant `None` (the "neutral" result of evaluating a literal), or a
heap-location name (a `str`).  This is the `TaintStatus | str | None` union
used throughout `analysis.py`. -/
inductive Value where
  | ts (t : TaintStatus)
  | vnone
  | loc (l : String)
deriving DecidableEq, Repr

/-- Python exceptions that the analyzer can raise: `KeyError` from a dict
lookup, and `NotImplementedError` (raised by `eval` with tag "Evaluator" and
by `state_transformer` with tag "State Transformer"). -/
inductive PyErr where
  | keyError (key : String)
  | notImplemented (ctx : String)
deriving DecidableEq, Repr

/-- `TaintStatus.lub` (`analysis.py` lines 17-21).  The Python code tests
`cls.TAINTED in [left, right]`, so any operand that is not literally the
enum member `TAINTED` (including `None` and heap-location strings) is treated
as non-tainted and the result collapses to `UNTAINTED`. -/
def TaintStatus.lub (left right : Value) : TaintStatus :=
  if left = Value.ts .TAINTED ∨ right = Value.ts .TAINTED then .TAINTED else .UNTAINTED

/-- The supported expression subset (`ast` nodes matched by `eval`):
literal constants, variable references, binary operations, list literals,
indexed reads `name[i]` (the index is never inspected by the analyzer, so it
is not represented), and a catch-all for every other expression kind, which
`eval` answers with `NotImplementedError`. -/
inductive Expr where
  | const
  | name (id : String)
  | binop (left right : Expr)
  | list (elts : List Expr)
  | subscriptName (id : String)
  | unsupported

/-- The supported statement subset (`ast` nodes matched by
`state_transformer`): a string-constant expression statement (the docstring
case), assignment to a name, assignment through `name[i]`, an expression
statement wrapping a call `f(args)` with `f` a plain name (`exprCall`), an
expression statement wrapping a call `obj.attr(args)` whose function is an
attribute access such as `expsec.declassify(a)` (`exprCallAttr`), `if`/
`while` headers and `pass`, and a catch-all for everything else. -/
inductive Stmt where
  | exprConstStr
  | assignName (target : String) (value : Expr)
  | assignSubscript (target : String) (value : Expr)
  | exprCall (func : String) (args : List Expr)
  | exprCallAttr (obj attr : String) (args : List Expr)
  | ifStmt
  | whileStmt
  | passStmt
  | unsupported

/-- A leak finding (`class Warning`): the offending statement and the tainted
sub-expression.  The source-text `format` method is pure string rendering and
is not modelled. -/
structure Warning where
  statement : Stmt
  expr : Expr

/-! ## Python dictionaries as association lists -/

/-- Python dict lookup `d[k]` (as an `Option`; callers that let a missing key
raise `KeyError` match on the `none` case). -/
def dlookup {V : Type} (d : List (String × V)) (k : String) : Option V :=
  match d with
  | [] => Option.none
  | (k', v) :: rest => if k' = k then some v else dlookup rest k

/-- Python dict assignment `d[k] = v`: replace the binding in place if the key
exists, otherwise append it. -/
def dinsert {V : Type} (d : List (String × V)) (k : String) (v : V) :
    List (String × V) :=
  match d with
  | [] => [(k, v)]
  | (k', v') :: rest =>
      if k' = k then (k, v) :: rest else (k', v') :: dinsert rest k v

/-- Python `d.update(other)`: every binding of `other` is written into `d`,
so on a key collision `other`'s value wins. -/
def dupdate {V : Type} (d other : List (String × V)) : List (String × V) :=
  other.foldl (fun acc kv => dinsert acc kv.1 kv.2) d

/-- Python dict equality `d1 == d2`: same keys and the same value at every
key, irrespective of insertion order. -/
def dExtEq {V : Type} [DecidableEq V] (d1 d2 : List (String × V)) : Bool :=
  d1.all (fun kv => decide (dlookup d2 kv.1 = dlookup d1 kv.1)) &&
  d2.all (fun kv => decide (dlookup d1 kv.1 = dlookup d2 kv.1))

/-! ## Abstract state -/

/-- The abstract program state (`class State`):
`public_primitive_vars` is a Python set of variable names,
`heap_vars` maps variables to heap-location names,
`heap_locations` maps heap-location names to their stored value
(`TaintStatus`, `None`, or -- through Python's dynamic typing -- another
location string), `block_id` tags the owning CFG block and `next_loc` is the
per-state location counter (dataclass default `0`). -/
structure State where
  public_primitive_vars : Finset String
  heap_vars : List (String × String)
  heap_locations : List (String × Value)
  block_id : String
  next_loc : Nat
deriving DecidableEq

/-- `State.get_taint_status` (lines 59-64): public variables are
`UNTAINTED`; a heap-aliased variable answers whatever its location stores
(raising `KeyError` if the location is missing from `heap_locations`); every
other variable defaults to `TAINTED`. -/
def State.get_taint_status (s : State) (var : String) : Except PyErr Value :=
  if var ∈ s.public_primitive_vars then .ok (.ts .UNTAINTED)
  else
    match dlookup s.heap_vars var with
    | some loc =>
        match dlookup s.heap_locations loc with
        | some v => .ok v
        | Option.none => .error (.keyError loc)
    | Option.none => .ok (.ts .TAINTED)

/-- `State.set_taint_status` (lines 66-82).  The Python `match` on `result`:
`None` does nothing; `TAINTED` removes the variable from the public set only
when it is currently public (when the variable is heap-aliased no case
matches and the statement silently does nothing); `UNTAINTED` adds the
variable to the public set (without touching `heap_vars`); a location string
removes the variable from the public set, rebinds `heap_vars`, and seeds a
still-undecided (`None`) location with the variable's previous status. -/
def State.set_taint_status (s : State) (var : String) (result : Value) :
    Except PyErr State :=
  match s.get_taint_status var with
  | .error e => .error e
  | .ok prev_ts =>
    match result with
    | .vnone => .ok s
    | .ts .TAINTED =>
        if var ∈ s.public_primitive_vars then
          .ok { s with public_primitive_vars := s.public_primitive_vars.erase var }
        else .ok s
    | .ts .UNTAINTED =>
        .ok { s with public_primitive_vars := insert var s.public_primitive_vars }
    | .loc l =>
        let ppv := s.public_primitive_vars.erase var
        let hv := dinsert s.heap_vars var l
        match dlookup s.heap_locations l with
        | some .vnone =>
            .ok { s with public_primitive_vars := ppv, heap_vars := hv,
                         heap_locations := dinsert s.heap_locations l prev_ts }
        | some _ =>
            .ok { s with public_primitive_vars := ppv, heap_vars := hv }
        | Option.none => .error (.keyError l)

/-- `State.add_location` (lines 84-89): allocate the location named
`<block_id>-loc<next_loc>`, register the given value for it, and bump the
counter. -/
def State.add_location (s : State) (result : Value) : String × State :=
  let loc := s.block_id ++ "-loc" ++ Nat.repr s.next_loc
  (loc, { s with next_loc := s.next_loc + 1,
                 heap_locations := dinsert s.heap_locations loc result })

/-- `State.get_location` (lines 91-92): `heap_vars[variable]`, raising
`KeyError` when the variable has no heap alias. -/
def State.get_location (s : State) (var : String) : Except PyErr String :=
  match dlookup s.heap_vars var with
  | some l => .ok l
  | Option.none => .error (.keyError var)

/-- `State.update_location_taint_status` (lines 94-95): a strong update of
the whole summarized object. -/
def State.update_location_taint_status (s : State) (loc : String) (v : Value) : State :=
  { s with heap_locations := dinsert s.heap_locations loc v }

/-- `State.copy_for_block` (lines 97-101): copy all three maps, retag with
the new block id; the dataclass constructor resets `next_loc` to `0`. -/
def State.copy_for_block (s : State) (block_id : String) : State :=
  { s with block_id := block_id, next_loc := 0 }

/-- `State.join_for_block` (lines 103-116): intersect the public sets and
merge both heap maps with `dict.update`, so `other`'s bindings win on
collision; `next_loc` restarts at `0`. -/
def State.join_for_block (s other : State) (block_id : String) : State :=
  { public_primitive_vars := s.public_primitive_vars ∩ other.public_primitive_vars
    heap_vars := dupdate s.heap_vars other.heap_vars
    heap_locations := dupdate s.heap_locations other.heap_locations
    block_id := block_id
    next_loc := 0 }

/-- Python `State` equality (dataclass `==`): set equality on the public
variables, dict equality on both heap maps, and equality of `block_id` and
`next_loc`.  This is the change-detection predicate of the fixpoint loop. -/
def State.pyEq (a b : State) : Bool :=
  decide (a.public_primitive_vars = b.public_primitive_vars) &&
  dExtEq a.heap_vars b.heap_vars &&
  dExtEq a.heap_locations b.heap_locations &&
  decide (a.block_id = b.block_id) &&
  decide (a.next_loc = b.next_loc)

/-! ## Expression evaluator -/

mutual

/-- `eval` (lines 119-146).  A constant is `None`; a name returns its heap
location when aliased, otherwise its taint status; a binary operation joins
both operand results with `TaintStatus.lub`; a list literal evaluates its
elements in order keeping the last result, breaking at the first `TAINTED`
element, then allocates a fresh location storing that result; `name[i]`
answers `heap_locations[heap_vars[name]]` (either lookup can raise
`KeyError`); anything else raises `NotImplementedError("Evaluator", ...)`. -/
def eval (expr : Expr) (s : State) : Except PyErr (Value × State) :=
  match expr with
  | .const => .ok (.vnone, s)
  | .name id =>
      match dlookup s.heap_vars id with
      | some l => .ok (.loc l, s)
      | Option.none =>
          match s.get_taint_status id with
          | .ok v => .ok (v, s)
          | .error e => .error e
  | .binop left right =>
      match eval left s with
      | .error e => .error e
      | .ok (lv, s1) =>
          match eval right s1 with
          | .error e => .error e
          | .ok (rv, s2) => .ok (.ts (TaintStatus.lub lv rv), s2)
  | .list elts =>
      match evalElts elts .vnone s with
      | .error e => .error e
      | .ok (ts, s1) =>
          let ls := s1.add_location ts
          .ok (.loc ls.1, ls.2)
  | .subscriptName id =>
      match dlookup s.heap_vars id with
      | Option.none => .error (.keyError id)
      | some l =>
          match dlookup s.heap_locations l with
          | Option.none => .error (.keyError l)
          | some v => .ok (v, s)
  | .unsupported => .error (.notImplemented "Evaluator")

/-- The element loop of `eval`'s list-literal case: `ts` starts as `None`,
each element overwrites it, and the loop breaks as soon as an element
evaluates to `TAINTED` (later elements are not evaluated at all). -/
def evalElts (elts : List Expr) (ts : Value) (s : State) :
    Except PyErr (Value × State) :=
  match elts with
  | [] => .ok (ts, s)
  | e :: rest =>
      match eval e s with
      | .error err => .error err
      | .ok (v, s1) =>
          if v = Value.ts .TAINTED then .ok (Value.ts .TAINTED, s1)
          else evalElts rest v s1

end

/-! ## Statement transformer -/

/-- `state_transformer` (lines 152-176).  Returns the updated state and an
optional `Warning` (the Python function mutates the state and returns the
warning).  Notably there is no case for a declassification call: such a
statement (`exprCallAttr ... "declassify" ...`, or a call to any plain name
other than `print`) falls into the wildcard and raises
`NotImplementedError("State Transformer", ...)`. -/
def state_transformer (statement : Stmt) (s : State) :
    Except PyErr (State × Option Warning) :=
  match statement with
  | .exprConstStr => .ok (s, Option.none)
  | .assignName name value =>
      match eval value s with
      | .error e => .error e
      | .ok (result, s1) =>
          match s1.set_taint_status name result with
          | .error e => .error e
          | .ok s2 => .ok (s2, Option.none)
  | .assignSubscript name value =>
      match eval value s with
      | .error e => .error e
      | .ok (result, s1) =>
          match s1.get_location name with
          | .error e => .error e
          | .ok loc => .ok (s1.update_location_taint_status loc result, Option.none)
  | .exprCall "print" [e] =>
      match eval e s with
      | .error err => .error err
      | .ok (r, s1) =>
          match r with
          | .ts .TAINTED =>
              .ok (s1, some ⟨.exprCall "print" [e], e⟩)
          | .ts .UNTAINTED => .ok (s1, Option.none)
          | .vnone => .ok (s1, Option.none)
          | .loc l =>
              match dlookup s1.heap_locations l with
              | some (.ts .TAINTED) =>
                  .ok (s1, some ⟨.exprCall "print" [e], e⟩)
              | some _ => .ok (s1, Option.none)
              | Option.none => .error (.keyError l)
  | .ifStmt => .ok (s, Option.none)
  | .whileStmt => .ok (s, Option.none)
  | .passStmt => .ok (s, Option.none)
  | _ => .error (.notImplemented "State Transformer")

/-! ## CFG blocks and the round-robin fixpoint solver -/

/-- A CFG basic block as consumed from the external builder: an id, the
ordered statements, and the ids of the predecessor blocks
(`link.source.id` for each entry of `block.predecessors`). -/
structure Block where
  id : String
  statements : List Stmt
  preds : List String

/-- The solver's mapping from block id to stored exit state. -/
abbrev StateMap := List (String × State)

/-- `join_states` (lines 179-185): copy the first predecessor state for the
block and fold `join_for_block` over the rest; `none` when the list is empty
(the caller guards that case). -/
def join_states (states : List State) (block_id : String) : Option State :=
  match states with
  | [] => Option.none
  | first :: rest =>
      some (rest.foldl (fun acc st => acc.join_for_block st block_id)
        (first.copy_for_block block_id))

/-- Look up each predecessor's stored exit state (`states[link.source.id]`,
`KeyError` on a missing id). -/
def getPredStates (states : StateMap) : List String → Except PyErr (List State)
  | [] => .ok []
  | p :: rest =>
      match dlookup states p with
      | Option.none => .error (.keyError p)
      | some st =>
          match getPredStates states rest with
          | .error e => .error e
          | .ok l => .ok (st :: l)

/-- Replay every statement of a block through `state_transformer`, ignoring
any returned warnings (this is what the fixpoint passes do). -/
def transform_block : List Stmt → State → Except PyErr State
  | [], s => .ok s
  | st :: rest, s =>
      match state_transformer st s with
      | .error e => .error e
      | .ok (s1, _) => transform_block rest s1

/-- One full pass of the `while changed` loop of `round_robin_iteration`
(lines 205-224): for each block in order, recompute a candidate exit state
from the currently stored predecessor states (Gauss-Seidel style: earlier
blocks of the same pass are already updated), compare it with the stored
state using Python `!=` (`State.pyEq`), and store it. -/
def rr_pass (initial : State) : List Block → StateMap → Bool →
    Except PyErr (StateMap × Bool)
  | [], states, changed => .ok (states, changed)
  | b :: rest, states, changed =>
      match getPredStates states b.preds with
      | .error e => .error e
      | .ok pred_states =>
          let entry : State :=
            match join_states pred_states b.id with
            | some st => st
            | Option.none => initial.copy_for_block b.id
          match transform_block b.statements entry with
          | .error e => .error e
          | .ok exitState =>
              match dlookup states b.id with
              | Option.none => .error (.keyError b.id)
              | some old =>
                  rr_pass initial rest (dinsert states b.id exitState)
                    (changed || !(State.pyEq old exitState))

/-- The `while changed` loop, driven by explicit fuel (one unit per pass).
`.ok none` means the fuel ran out with the loop still reporting changes;
`.ok (some states)` is the converged result. -/
def rr_loop (initial : State) (blocks : List Block) :
    Nat → StateMap → Except PyErr (Option StateMap)
  | 0, _ => .ok Option.none
  | Nat.succ fuel, states =>
      match rr_pass initial blocks states false with
      | .error e => .error e
      | .ok (states1, changed) =>
          if changed then rr_loop initial blocks fuel states1
          else .ok (some states1)

/-- The initial stored-state table (line 201): every block starts from a copy
of the initial state tagged with its own id. -/
def init_states (initial : State) (blocks : List Block) : StateMap :=
  blocks.map (fun b => (b.id, initial.copy_for_block b.id))

/-- `round_robin_iteration` (lines 188-226), with fuel bounding the number of
passes the Python `while` loop may take. -/
def round_robin_iteration (initial : State) (blocks : List Block) (fuel : Nat) :
    Except PyErr (Option StateMap) :=
  rr_loop initial blocks fuel (init_states initial blocks)

/-! ## Final finding-collection pass of `run_analysis` -/

/-- Replay a block's statements keeping every warning the transformer
returns, in statement order (lines 276-279). -/
def collect_block_findings : List Stmt → State → List Warning →
    Except PyErr (State × List Warning)
  | [], s, acc => .ok (s, acc)
  | st :: rest, s, acc =>
      match state_transformer st s with
      | .error e => .error e
      | .ok (s1, Option.none) => collect_block_findings rest s1 acc
      | .ok (s1, some w) => collect_block_findings rest s1 (acc ++ [w])

/-- The read-only output iteration of `run_analysis` (lines 267-279): after
convergence, re-derive each block's entry state from the stored predecessor
exit states and collect the warnings in block order. -/
def collect_findings (initial : State) (states : StateMap) :
    List Block → Except PyErr (List Warning)
  | [] => .ok []
  | b :: rest =>
      match getPredStates states b.preds with
      | .error e => .error e
      | .ok pred_states =>
          let entry : State :=
            match join_states pred_states b.id with
            | some st => st
            | Option.none => initial.copy_for_block b.id
          match collect_block_findings b.statements entry [] with
          | .error e => .error e
          | .ok (_, ws) =>
              match collect_findings initial states rest with
              | .error e => .error e
              | .ok ws2 => .ok (ws ++ ws2)

/-- The analysis pipeline of `run_analysis` (lines 241-284) downstream of
parsing and CFG construction: build the initial state
`State(public_variables, {}, {}, "")`, run the fixpoint solver, then collect
the findings.  `.ok none` means the solver was still iterating when the fuel
ran out. -/
def run_analysis_model (publics : Finset String) (blocks : List Block)
    (fuel : Nat) : Except PyErr (Option (List Warning)) :=
  let initial : State := ⟨publics, [], [], "", 0⟩
  match round_robin_iteration initial blocks fuel with
  | .error e => .error e
  | .ok Option.none => .ok Option.none
  | .ok (some states) =>
      match collect_findings initial states blocks with
      | .error e => .error e
      | .ok ws => .ok (some ws)

/-! ## The `expsec_public` docstring directive -/

/-- Python `str.split` with a single-character separator, modelled
structurally on the character list (Lean's own `String.splitOn` is defined
by well-founded recursion and does not reduce inside the kernel). -/
def splitOnChar (sep : Char) : List Char → List (List Char)
  | [] => [[]]
  | c :: rest =>
      match splitOnChar sep rest with
      | [] => [[]]
      | cur :: others =>
          if c = sep then [] :: cur :: others else (c :: cur) :: others

/-- Python `str.split(", ")`: split on the two-character separator. -/
def splitOnCommaSpace : List Char → List (List Char)
  | [] => [[]]
  | ',' :: ' ' :: rest => [] :: splitOnCommaSpace rest
  | c :: rest =>
      match splitOnCommaSpace rest with
      | [] => [[]]
      | cur :: others => (c :: cur) :: others

/-- Python `str.strip()`: drop whitespace from both ends. -/
def stripChars (cs : List Char) : List Char :=
  ((cs.dropWhile Char.isWhitespace).reverse.dropWhile Char.isWhitespace).reverse

/-- `get_public_variables_from_docstring` (lines 229-238), taking the
module's docstring (the result of `ast.get_docstring`) as input.  With no
docstring the Python function returns `set()`; with a docstring it returns
`set(...)` parsed from the first `expsec_public:` line -- and when no line
matches, the `for` loop finishes and the function implicitly returns `None`
(modelled as `Option.none`), despite its `-> set[str]` annotation. -/
def get_public_variables_from_docstring (docstring : Option String) :
    Option (Finset String) :=
  match docstring with
  | Option.none => some ∅
  | some ds =>
      match (splitOnChar (Char.ofNat 10) ds.data).find?
          (fun line => "expsec_public:".data.isPrefixOf line) with
      | some line =>
          some (((splitOnCommaSpace (stripChars (line.drop 14))).map
            (fun cs => String.mk cs)).toFinset)
      | Option.none => Option.none

/-! ## Basic lemmas about the dictionary model -/

deriving instance DecidableEq for Except

theorem dlookup_dinsert {V : Type} (d : List (String × V)) (k k' : String) (v : V) :
    dlookup (dinsert d k v) k' = if k = k' then some v else dlookup d k' := by
  induction d with
  | nil => simp [dinsert, dlookup]
  | cons kv rest ih =>
      obtain ⟨a, b⟩ := kv
      by_cases hak : a = k
      · subst hak
        simp only [dinsert, if_pos rfl, dlookup]
        by_cases h' : a = k' <;> simp [h']
      · simp only [dinsert, if_neg hak, dlookup, ih]
        by_cases h' : a = k'
        · subst h'
          have hk : ¬(k = a) := fun h => hak h.symm
          simp [hk]
        · simp [h']

theorem dupdate_cons {V : Type} (d : List (String × V)) (a : String) (b : V)
    (rest : List (String × V)) :
    dupdate d ((a, b) :: rest) = dupdate (dinsert d a b) rest := rfl

theorem dlookup_dupdate_eq_none {V : Type} (other d : List (String × V)) (k : String) :
    dlookup (dupdate d other) k = Option.none ↔
      dlookup d k = Option.none ∧ dlookup other k = Option.none := by
  induction other generalizing d with
  | nil => simp [dupdate, dlookup]
  | cons kv rest ih =>
      obtain ⟨a, b⟩ := kv
      rw [dupdate_cons, ih, dlookup_dinsert]
      simp only [dlookup]
      by_cases hak : a = k <;> simp [hak]

/-! ## The evaluator only touches `heap_locations` and `next_loc` -/

theorem eval_evalElts_preserve (n : Nat) :
    (∀ e s v s1, sizeOf e ≤ n → eval e s = .ok (v, s1) →
      s1.heap_vars = s.heap_vars ∧
        s1.public_primitive_vars = s.public_primitive_vars) ∧
    (∀ elts ts s v s1, sizeOf elts ≤ n → evalElts elts ts s = .ok (v, s1) →
      s1.heap_vars = s.heap_vars ∧
        s1.public_primitive_vars = s.public_primitive_vars) := by
  induction n using Nat.strong_induction_on with
  | _ n ih =>
    constructor
    · intro e s v s1 hsz h
      match e with
      | .const =>
          simp only [eval, Except.ok.injEq, Prod.mk.injEq] at h
          obtain ⟨-, rfl⟩ := h
          exact ⟨rfl, rfl⟩
      | .name id =>
          cases hhv : dlookup s.heap_vars id with
          | some l =>
              simp only [eval, hhv, Except.ok.injEq, Prod.mk.injEq] at h
              obtain ⟨-, rfl⟩ := h
              exact ⟨rfl, rfl⟩
          | none =>
              cases hg : s.get_taint_status id with
              | ok w =>
                  simp only [eval, hhv, hg, Except.ok.injEq, Prod.mk.injEq] at h
                  obtain ⟨-, rfl⟩ := h
                  exact ⟨rfl, rfl⟩
              | error err => simp [eval, hhv, hg] at h
      | .binop left right =>
          cases hl : eval left s with
          | error err => simp [eval, hl] at h
          | ok p =>
              obtain ⟨lv, sl⟩ := p
              cases hr : eval right sl with
              | error err => simp [eval, hl, hr] at h
              | ok q =>
                  obtain ⟨rv, sr⟩ := q
                  simp only [eval, hl, hr, Except.ok.injEq, Prod.mk.injEq] at h
                  obtain ⟨-, rfl⟩ := h
                  have hszl : sizeOf left < n := by
                    have : sizeOf left < sizeOf (Expr.binop left right) := by
                      simp only [Expr.binop.sizeOf_spec]; omega
                    omega
                  have hszr : sizeOf right < n := by
                    have : sizeOf right < sizeOf (Expr.binop left right) := by
                      simp only [Expr.binop.sizeOf_spec]; omega
                    omega
                  have pl := (ih (sizeOf left) hszl).1 left s lv sl le_rfl hl
                  have pr := (ih (sizeOf right) hszr).1 right sl rv sr le_rfl hr
                  exact ⟨pr.1.trans pl.1, pr.2.trans pl.2⟩
      | .list elts =>
          cases hel : evalElts elts .vnone s with
          | error err => simp [eval, hel] at h
          | ok p =>
              obtain ⟨tv, st⟩ := p
              simp only [eval, hel, Except.ok.injEq, Prod.mk.injEq] at h
              obtain ⟨-, rfl⟩ := h
              have hszl : sizeOf elts < n := by
                have : sizeOf elts < sizeOf (Expr.list elts) := by
                  simp only [Expr.list.sizeOf_spec]; omega
                omega
              have pe := (ih (sizeOf elts) hszl).2 elts .vnone s tv st le_rfl hel
              exact ⟨pe.1, pe.2⟩
      | .subscriptName id =>
          cases hhv : dlookup s.heap_vars id with
          | none => simp [eval, hhv] at h
          | some l =>
              cases hhl : dlookup s.heap_locations l with
              | none => simp [eval, hhv, hhl] at h
              | some w =>
                  simp only [eval, hhv, hhl, Except.ok.injEq, Prod.mk.injEq] at h
                  obtain ⟨-, rfl⟩ := h
                  exact ⟨rfl, rfl⟩
      | .unsupported => simp [eval] at h
    · intro elts ts s v s1 hsz h
      match elts with
      | [] =>
          simp only [evalElts, Except.ok.injEq, Prod.mk.injEq] at h
          obtain ⟨-, rfl⟩ := h
          exact ⟨rfl, rfl⟩
      | e :: rest =>
          cases he : eval e s with
          | error err => simp [evalElts, he] at h
          | ok p =>
              obtain ⟨ev, se⟩ := p
              simp only [evalElts, he] at h
              have hsze : sizeOf e < n := by
                have : sizeOf e < sizeOf (e :: rest) := by
                  simp only [List.cons.sizeOf_spec]; omega
                omega
              have pe := (ih (sizeOf e) hsze).1 e s ev se le_rfl he
              by_cases hev : ev = Value.ts .TAINTED
              · rw [if_pos hev] at h
                simp only [Except.ok.injEq, Prod.mk.injEq] at h
                obtain ⟨-, rfl⟩ := h
                exact pe
              · rw [if_neg hev] at h
                have hszr : sizeOf rest < n := by
                  have : sizeOf rest < sizeOf (e :: rest) := by
                    simp only [List.cons.sizeOf_spec]; omega
                  omega
                have pr := (ih (sizeOf rest) hszr).2 rest ev se v s1 le_rfl h
                exact ⟨pr.1.trans pe.1, pr.2.trans pe.2⟩

theorem eval_heap_vars_eq {e : Expr} {s s1 : State} {v : Value}
    (h : eval e s = .ok (v, s1)) : s1.heap_vars = s.heap_vars :=
  ((eval_evalElts_preserve (sizeOf e)).1 e s v s1 le_rfl h).1

/-! ## A subject program on which the fixpoint loop never converges

The subject program is the plain swap loop

  c = [1]
  d = [2]
  a = [c]
  b = [d]
  while e:
      t = a[0]
      a[0] = b[0]
      b[0] = t

with CFG: block "1" (the straight-line prefix), block "2" (the loop header,
predecessors "1" and "3") and block "3" (the loop body, predecessor "2").
`a` and `b` alias locations whose stored values are the two distinct
location strings "1-loc0" and "1-loc1" (a list literal of a heap variable
stores that variable's location as the new location's value), and the body
swaps those stored values through `t`.  Each solver pass therefore swaps the
two values back, the stored exit states of blocks "2" and "3" alternate with
period two, and the Python `while changed` loop never exits. -/

def swapInitial : State := ⟨∅, [], [], "", 0⟩

def swapBlocks : List Block :=
  [ ⟨"1", [.assignName "c" (.list [.const]), .assignName "d" (.list [.const]),
           .assignName "a" (.list [.name "c"]), .assignName "b" (.list [.name "d"])], []⟩,
    ⟨"2", [.whileStmt], ["1", "3"]⟩,
    ⟨"3", [.assignName "t" (.subscriptName "a"), .assignSubscript "a" (.subscriptName "b"),
           .assignSubscript "b" (.name "t")], ["2"]⟩ ]

/-- One solver pass on the swap CFG (the error default is never taken). -/
def swapStep (m : StateMap) : StateMap :=
  match rr_pass swapInitial swapBlocks m false with
  | .ok p => p.1
  | .error _ => []

def swapM1 : StateMap := swapStep (init_states swapInitial swapBlocks)

def swapM2 : StateMap := swapStep swapM1

def swapM3 : StateMap := swapStep swapM2

theorem swap_pass_0 :
    rr_pass swapInitial swapBlocks (init_states swapInitial swapBlocks) false =
      .ok (swapM1, true) := by decide

theorem swap_pass_1 :
    rr_pass swapInitial swapBlocks swapM1 false = .ok (swapM2, true) := by decide

theorem swap_pass_2 :
    rr_pass swapInitial swapBlocks swapM2 false = .ok (swapM3, true) := by decide

theorem swap_pass_3 :
    rr_pass swapInitial swapBlocks swapM3 false = .ok (swapM2, true) := by decide

/-- The two states of the period-two cycle really differ, so every pass
reports a change. -/
theorem swap_states_differ : swapM2 ≠ swapM3 := by decide

theorem rr_loop_step (initial : State) (blocks : List Block) (fuel : Nat)
    (states states1 : StateMap)
    (h : rr_pass initial blocks states false = .ok (states1, true)) :
    rr_loop initial blocks (Nat.succ fuel) states =
      rr_loop initial blocks fuel states1 := by
  simp [rr_loop, h]

theorem swap_loop_stuck (fuel : Nat) :
    rr_loop swapInitial swapBlocks fuel swapM2 = .ok Option.none ∧
    rr_loop swapInitial swapBlocks fuel swapM3 = .ok Option.none := by
  induction fuel with
  | zero => exact ⟨rfl, rfl⟩
  | succ n ih =>
      exact ⟨by rw [rr_loop_step _ _ _ _ _ swap_pass_2]; exact ih.2,
             by rw [rr_loop_step _ _ _ _ _ swap_pass_3]; exact ih.1⟩

/-! ## Claim theorems -/

/-- Claim C6: the claim states that for every finite CFG the round-robin
iteration reaches a pass with no change after finitely many passes.  This is
false: on the swap-loop CFG `swapBlocks` (three blocks, six variables, four
list literals) the `while changed` loop of `round_robin_iteration` runs
forever -- no matter how much fuel the model grants, the loop is still
reporting changes when the fuel runs out, because the stored exit states
cycle with period two (`swap_pass_2`, `swap_pass_3`, `swap_states_differ`). -/
theorem round_robin_swap_never_converges (fuel : Nat) :
    round_robin_iteration swapInitial swapBlocks fuel = .ok Option.none := by
  unfold round_robin_iteration
  cases fuel with
  | zero => rfl
  | succ n =>
      rw [rr_loop_step _ _ _ _ _ swap_pass_0]
      cases n with
      | zero => rfl
      | succ m =>
          rw [rr_loop_step _ _ _ _ _ swap_pass_1]
          exact (swap_loop_stuck m).1

/-- The one-block CFG of the subject program `a = 10; print(a)`. -/
def scenarioABlocks : List Block :=
  [ ⟨"1", [.assignName "a" .const, .exprCall "print" [.name "a"]], []⟩ ]

/-- Claim C1 counterexample: with no public directive, the analysis of
`a = 10; print(a)` does NOT produce an empty finding list.  (Assigning the
constant is a no-op on taint -- `set_taint_status` with `None` does nothing
-- so `a` stays default-TAINTED and the print is flagged.) -/
theorem scenarioA_not_finding_free :
    run_analysis_model ∅ scenarioABlocks 4 ≠ .ok (some ([] : List Warning)) := by
  have h : run_analysis_model ∅ scenarioABlocks 4 =
      .ok (some [⟨.exprCall "print" [.name "a"], .name "a"⟩]) := rfl
  rw [h]
  simp

/-- Claim C1 (amended): the analysis of `a = 10; print(a)` with no public
directive converges (four passes of fuel are ample; it stabilizes after the
first pass) and reports exactly one finding, at the `print` argument `a`:
the neutral constant assignment leaves `a`'s default TAINTED classification
in place. -/
theorem scenarioA_exactly_one_finding :
    run_analysis_model ∅ scenarioABlocks 4 =
      .ok (some [⟨.exprCall "print" [.name "a"], .name "a"⟩]) := rfl

/-- Claim C2: the spec says a declassification call on a named variable
forcibly reclassifies it as UNTAINTED and is accepted by the transformer.
The code has no such case: a statement `expsec.declassify(x)` (a call whose
function is an attribute access), or a call to the bare name `declassify`,
falls through every pattern of `state_transformer` and raises
`NotImplementedError("State Transformer", ...)` for every prior state. -/
theorem declassify_raises_not_implemented (s : State) (x : String) :
    state_transformer (.exprCallAttr "expsec" "declassify" [.name x]) s =
      .error (.notImplemented "State Transformer") ∧
    state_transformer (.exprCall "declassify" [.name x]) s =
      .error (.notImplemented "State Transformer") := by
  exact ⟨rfl, rfl⟩

/-- A state in which variable `a` aliases heap location `l`, whose recorded
taint is UNTAINTED. -/
def aliasedState : State := ⟨∅, [("a", "l")], [("l", .ts .UNTAINTED)], "B", 0⟩

/-- Claim C3 counterexample: `set_taint_status` with TAINTED on the
heap-aliased variable `a` matches no case of the Python `match` (the TAINTED
case is guarded by membership in the public set), so the state is returned
unchanged: `a` is still in `heap_vars` and `taint_of(a)` still answers the
location's UNTAINTED status, not TAINTED. -/
theorem set_tainted_keeps_heap_alias :
    State.set_taint_status aliasedState "a" (.ts .TAINTED) = .ok aliasedState ∧
    dlookup aliasedState.heap_vars "a" = some "l" ∧
    State.get_taint_status aliasedState "a" = .ok (.ts .UNTAINTED) :=
  ⟨rfl, rfl, rfl⟩

/-- Claim C3 (amended): after `set_taint_status(var, TAINTED)` the variable
is removed from `public_primitives` if present; when the variable does NOT
alias a heap location it then sits in neither map and `taint_of` returns
TAINTED by the default rule.  (A heap-aliased variable instead keeps its
alias untouched -- see `set_tainted_keeps_heap_alias`.) -/
theorem set_tainted_without_alias (s : State) (var : String)
    (h : dlookup s.heap_vars var = Option.none) :
    ∃ s1, State.set_taint_status s var (.ts .TAINTED) = .ok s1 ∧
      var ∉ s1.public_primitive_vars ∧
      dlookup s1.heap_vars var = Option.none ∧
      State.get_taint_status s1 var = .ok (.ts .TAINTED) := by
  refine ⟨{ s with public_primitive_vars := s.public_primitive_vars.erase var },
      ?_, Finset.not_mem_erase _ _, h, ?_⟩
  · by_cases hm : var ∈ s.public_primitive_vars
    · have hg : s.get_taint_status var = .ok (.ts .UNTAINTED) := by
        unfold State.get_taint_status
        rw [if_pos hm]
      simp only [State.set_taint_status, hg, if_pos hm]
    · have hg : s.get_taint_status var = .ok (.ts .TAINTED) := by
        unfold State.get_taint_status
        rw [if_neg hm, h]
      simp only [State.set_taint_status, hg, if_neg hm,
        Finset.erase_eq_of_not_mem hm]
  · unfold State.get_taint_status
    simp [Finset.not_mem_erase, h]

/-- A state whose only content is the public variable `p`. -/
def onlyPublicP : State := ⟨{"p"}, [], [], "B", 0⟩

theorem set_tainted_without_alias_witness :
    dlookup onlyPublicP.heap_vars "p" = Option.none ∧
    ∃ s1, State.set_taint_status onlyPublicP "p" (.ts .TAINTED) = .ok s1 ∧
      "p" ∉ s1.public_primitive_vars ∧
      dlookup s1.heap_vars "p" = Option.none ∧
      State.get_taint_status s1 "p" = .ok (.ts .TAINTED) :=
  ⟨rfl, set_tainted_without_alias onlyPublicP "p" rfl⟩

/-- The §3 invariant claimed by the spec: every variable in
`public_primitive_vars` is absent from `heap_vars`. -/
def InOneMapOnly (s : State) : Prop :=
  ∀ v ∈ s.public_primitive_vars, dlookup s.heap_vars v = Option.none

instance (s : State) : Decidable (InOneMapOnly s) :=
  inferInstanceAs
    (Decidable (∀ v ∈ s.public_primitive_vars, dlookup s.heap_vars v = Option.none))

/-- The reachable initial state for the directive `expsec_public: p`. -/
def bothMapsInit : State := ⟨{"p"}, [], [], "1", 0⟩

/-- Claim C4 counterexample: from the reachable initial state for
`expsec_public: p`, running the transformer over `l = [1]; l = p` leaves
`l` simultaneously in `public_primitive_vars` and in `heap_vars`:
`set_taint_status` with UNTAINTED adds to the public set without removing
the heap alias, so the claimed invariant is not preserved and is violated
in a reachable state. -/
theorem untainted_assignment_breaks_invariant :
    transform_block [.assignName "l" (.list [.const]), .assignName "l" (.name "p")]
        bothMapsInit =
      .ok ⟨insert "l" {"p"}, [("l", "1-loc0")], [("1-loc0", .ts .TAINTED)], "1", 1⟩ ∧
    ¬ InOneMapOnly ⟨insert "l" {"p"}, [("l", "1-loc0")], [("1-loc0", .ts .TAINTED)], "1", 1⟩ := by
  refine ⟨rfl, fun hI => ?_⟩
  have := hI "l" (Finset.mem_insert_self _ _)
  simp [dlookup] at this

/-- Claim C4 (amended): `join_for_block` and `copy_for_block` preserve the
at-most-one-map invariant, and `set_taint_status` preserves it for every
result except UNTAINTED on a currently heap-aliased variable (the case in
which it adds the variable to the public set while leaving the alias in
place, breaking the invariant -- see
`untainted_assignment_breaks_invariant`). -/
theorem invariant_preservation_amended :
    (∀ s other : State, ∀ bid, InOneMapOnly s → InOneMapOnly other →
      InOneMapOnly (s.join_for_block other bid)) ∧
    (∀ s : State, ∀ bid, InOneMapOnly s → InOneMapOnly (s.copy_for_block bid)) ∧
    (∀ s : State, ∀ var r s1, State.set_taint_status s var r = .ok s1 →
      InOneMapOnly s →
      (r = .ts .UNTAINTED → dlookup s.heap_vars var = Option.none) →
      InOneMapOnly s1) := by
  refine ⟨?_, ?_, ?_⟩
  · intro s other bid h1 h2 v hv
    simp only [State.join_for_block] at hv ⊢
    rw [Finset.mem_inter] at hv
    rw [dlookup_dupdate_eq_none]
    exact ⟨h1 v hv.1, h2 v hv.2⟩
  · intro s bid h1 v hv
    exact h1 v hv
  · intro s var r s1 heq hInv hUnt
    cases hg : s.get_taint_status var with
    | error err =>
        simp only [State.set_taint_status, hg] at heq
        exact absurd heq (by simp)
    | ok prev =>
        simp only [State.set_taint_status, hg] at heq
        cases r with
        | vnone =>
            simp only [Except.ok.injEq] at heq
            subst heq
            exact hInv
        | ts t =>
            cases t with
            | TAINTED =>
                by_cases hm : var ∈ s.public_primitive_vars
                · rw [if_pos hm] at heq
                  simp only [Except.ok.injEq] at heq
                  subst heq
                  intro v hv
                  exact hInv v (Finset.mem_of_mem_erase hv)
                · rw [if_neg hm] at heq
                  simp only [Except.ok.injEq] at heq
                  subst heq
                  exact hInv
            | UNTAINTED =>
                simp only [Except.ok.injEq] at heq
                subst heq
                intro v hv
                rcases Finset.mem_insert.mp hv with rfl | hv'
                · exact hUnt rfl
                · exact hInv v hv'
        | loc l =>
            cases hl : dlookup s.heap_locations l with
            | none =>
                simp only [hl] at heq
                exact absurd heq (by simp)
            | some w =>
                have hmain : ∀ v, v ∈ s.public_primitive_vars.erase var →
                    dlookup (dinsert s.heap_vars var l) v = Option.none := by
                  intro v hv
                  have hne : var ≠ v := fun hh => Finset.ne_of_mem_erase hv hh.symm
                  rw [dlookup_dinsert, if_neg hne]
                  exact hInv v (Finset.mem_of_mem_erase hv)
                cases w with
                | vnone =>
                    simp only [hl] at heq
                    simp only [Except.ok.injEq] at heq
                    subst heq
                    exact hmain
                | ts t =>
                    simp only [hl] at heq
                    simp only [Except.ok.injEq] at heq
                    subst heq
                    exact hmain
                | loc l2 =>
                    simp only [hl] at heq
                    simp only [Except.ok.injEq] at heq
                    subst heq
                    exact hmain

/-- A state satisfying the invariant, with a public variable and an
unrelated heap alias. -/
def invStateA : State := ⟨{"p"}, [("x", "L")], [("L", .ts .TAINTED)], "A", 0⟩

/-- A second invariant-satisfying state for the join. -/
def invStateB : State := ⟨{"p", "q"}, [], [], "B", 0⟩

theorem invariant_preservation_amended_witness :
    InOneMapOnly invStateA ∧ InOneMapOnly invStateB ∧
    InOneMapOnly (invStateA.join_for_block invStateB "J") ∧
    InOneMapOnly (invStateA.copy_for_block "C") ∧
    State.set_taint_status invStateA "y" (.loc "L") =
      .ok ⟨{"p"}, [("x", "L"), ("y", "L")], [("L", .ts .TAINTED)], "A", 0⟩ ∧
    InOneMapOnly (⟨{"p"}, [("x", "L"), ("y", "L")], [("L", .ts .TAINTED)], "A", 0⟩ : State) :=
  ⟨by decide, by decide,
   invariant_preservation_amended.1 invStateA invStateB "J" (by decide) (by decide),
   invariant_preservation_amended.2.1 invStateA "C" (by decide),
   rfl,
   invariant_preservation_amended.2.2 invStateA "y" (.loc "L")
     ⟨{"p"}, [("x", "L"), ("y", "L")], [("L", .ts .TAINTED)], "A", 0⟩
     rfl (by decide) (fun hh => nomatch hh)⟩

/-- The empty state `State(set(), {}, {}, "")`. -/
def emptyState : State := ⟨∅, [], [], "", 0⟩

/-- Claim C5 counterexample: a binary operation both of whose operands are
literal constants (each evaluating to the neutral `None`) evaluates to
UNTAINTED, not to neutral: `lub` is not an identity on the neutral value
when both operands are neutral. -/
theorem binop_of_two_neutrals_not_neutral :
    eval (.binop .const .const) emptyState = .ok (.ts .UNTAINTED, emptyState) ∧
    Value.ts .UNTAINTED ≠ Value.vnone :=
  ⟨rfl, by simp⟩

/-- Claim C5 (amended): the neutral value is absorbed by `TaintStatus.lub`
only against a genuine `TaintStatus` operand (`lub(neutral, t) = t` for
`t ∈ {TAINTED, UNTAINTED}`); `lub(neutral, neutral) = UNTAINTED`, so a
binary operation over two literal constants evaluates to UNTAINTED rather
than staying neutral. -/
theorem lub_neutral_identity_only_on_statuses :
    (∀ t : TaintStatus, TaintStatus.lub .vnone (.ts t) = t) ∧
    (∀ t : TaintStatus, TaintStatus.lub (.ts t) .vnone = t) ∧
    TaintStatus.lub .vnone .vnone = .UNTAINTED ∧
    (∀ s : State, eval (.binop .const .const) s = .ok (.ts .UNTAINTED, s)) :=
  ⟨fun t => by cases t <;> rfl, fun t => by cases t <;> rfl, rfl, fun s => rfl⟩

/-- Claim C7: in any state where `v` aliases location `loc`, transforming an
indexed assignment through `v` whose right-hand side evaluates to TAINTED
stores TAINTED at `loc`; and in every state that still records TAINTED at
`loc` (i.e. until the location is next overwritten), an indexed read through
any variable aliasing `loc` evaluates to TAINTED. -/
theorem tainted_heap_write_then_reads (s s1 s2 : State) (v loc : String)
    (e : Expr) (w : Option Warning)
    (hal : dlookup s.heap_vars v = some loc)
    (he : eval e s = .ok (.ts .TAINTED, s1))
    (ht : state_transformer (.assignSubscript v e) s = .ok (s2, w)) :
    dlookup s2.heap_locations loc = some (.ts .TAINTED) ∧
    ∀ s3 : State, ∀ u : String,
      dlookup s3.heap_locations loc = some (.ts .TAINTED) →
      dlookup s3.heap_vars u = some loc →
      eval (.subscriptName u) s3 = .ok (.ts .TAINTED, s3) := by
  have hhv1 : dlookup s1.heap_vars v = some loc := by
    rw [eval_heap_vars_eq he]; exact hal
  have hloc : s1.get_location v = .ok loc := by
    unfold State.get_location
    rw [hhv1]
  simp only [state_transformer, he, hloc, State.update_location_taint_status] at ht
  simp only [Except.ok.injEq, Prod.mk.injEq] at ht
  obtain ⟨hs2, -⟩ := ht
  constructor
  · rw [← hs2]
    show dlookup (dinsert s1.heap_locations loc (.ts .TAINTED)) loc = _
    rw [dlookup_dinsert, if_pos rfl]
  · intro s3 u h3 h4
    simp [eval, h4, h3]

theorem tainted_heap_write_then_reads_witness :
    dlookup aliasedState.heap_vars "a" = some "l" ∧
    eval (.name "x") aliasedState = .ok (.ts .TAINTED, aliasedState) ∧
    state_transformer (.assignSubscript "a" (.name "x")) aliasedState =
      .ok (⟨∅, [("a", "l")], [("l", .ts .TAINTED)], "B", 0⟩, Option.none) ∧
    (dlookup (⟨∅, [("a", "l")], [("l", .ts .TAINTED)], "B", 0⟩ : State).heap_locations "l" =
        some (.ts .TAINTED) ∧
      ∀ s3 : State, ∀ u : String,
        dlookup s3.heap_locations "l" = some (.ts .TAINTED) →
        dlookup s3.heap_vars u = some "l" →
        eval (.subscriptName u) s3 = .ok (.ts .TAINTED, s3)) :=
  ⟨rfl, rfl, rfl,
   tainted_heap_write_then_reads aliasedState aliasedState
     ⟨∅, [("a", "l")], [("l", .ts .TAINTED)], "B", 0⟩ "a" "l" (.name "x")
     Option.none rfl rfl rfl⟩

/-- Claim C8: the claim says the derived initial public set is empty both
with no docstring and with a docstring lacking the directive.  The code
agrees only in the first case: with a docstring such as "hello" that has no
`expsec_public:` line, the Python `for` loop falls through and the function
implicitly returns `None` (not `set()`), contradicting its own
`-> set[str]` annotation; `run_analysis` then builds `State(None, ...)`. -/
theorem docstring_without_directive_yields_none :
    get_public_variables_from_docstring (some "hello") = Option.none ∧
    get_public_variables_from_docstring Option.none = some (∅ : Finset String) ∧
    (Option.none : Option (Finset String)) ≠ some ∅ := by
  refine ⟨?_, rfl, by simp⟩
  rfl

/-- Claim C9: reading `v[i]` when `v` has no heap alias raises
`KeyError(v)` from the `heap_vars` lookup -- not the
`NotImplementedError` used for unsupported constructs, and not a taint
result -- and an indexed assignment `v[i] = e` (whose right-hand side
evaluates without error) fails the same way from `get_location`. -/
theorem missing_alias_raises_key_error (s s1 : State) (v : String) (e : Expr)
    (r : Value)
    (h : dlookup s.heap_vars v = Option.none)
    (he : eval e s = .ok (r, s1)) :
    eval (.subscriptName v) s = .error (.keyError v) ∧
    state_transformer (.assignSubscript v e) s = .error (.keyError v) ∧
    PyErr.keyError v ≠ .notImplemented "Evaluator" ∧
    PyErr.keyError v ≠ .notImplemented "State Transformer" := by
  refine ⟨?_, ?_, by simp, by simp⟩
  · simp [eval, h]
  · have h1 : dlookup s1.heap_vars v = Option.none := by
      rw [eval_heap_vars_eq he]; exact h
    have hloc : s1.get_location v = .error (.keyError v) := by
      unfold State.get_location
      rw [h1]
    simp [state_transformer, he, hloc]

theorem missing_alias_raises_key_error_witness :
    dlookup emptyState.heap_vars "a" = Option.none ∧
    eval .const emptyState = .ok (.vnone, emptyState) ∧
    (eval (.subscriptName "a") emptyState = .error (.keyError "a") ∧
      state_transformer (.assignSubscript "a" .const) emptyState =
        .error (.keyError "a") ∧
      PyErr.keyError "a" ≠ .notImplemented "Evaluator" ∧
      PyErr.keyError "a" ≠ .notImplemented "State Transformer") :=
  ⟨rfl, rfl,
   missing_alias_raises_key_error emptyState emptyState "a" .const .vnone rfl rfl⟩

/-- Claim C10: when `v` aliases a heap location recorded as TAINTED, a
binary operation with `v` as either operand still evaluates to UNTAINTED
whenever the other operand does not itself evaluate to TAINTED: `eval` hands
`lub` the location string for `v`, and `lub` treats anything that is not the
enum member TAINTED as non-tainted, so heap-object taint never propagates
through binary operations. -/
theorem heap_alias_untainted_in_binop (s s1 : State) (v l : String) (e : Expr)
    (r : Value)
    (hv : dlookup s.heap_vars v = some l)
    (hl : dlookup s.heap_locations l = some (.ts .TAINTED))
    (he : eval e s = .ok (r, s1))
    (hr : r ≠ .ts .TAINTED) :
    eval (.binop (.name v) e) s = .ok (.ts .UNTAINTED, s1) ∧
    eval (.binop e (.name v)) s = .ok (.ts .UNTAINTED, s1) := by
  have h1 : dlookup s1.heap_vars v = some l := by
    rw [eval_heap_vars_eq he]; exact hv
  constructor
  · simp [eval, hv, he, TaintStatus.lub, hr]
  · simp [eval, he, h1, TaintStatus.lub, hr]

/-- A state in which `v` aliases location `L`, recorded as TAINTED. -/
def taintedAliasState : State := ⟨∅, [("v", "L")], [("L", .ts .TAINTED)], "B", 0⟩

theorem heap_alias_untainted_in_binop_witness :
    dlookup taintedAliasState.heap_vars "v" = some "L" ∧
    dlookup taintedAliasState.heap_locations "L" = some (.ts .TAINTED) ∧
    eval .const taintedAliasState = .ok (.vnone, taintedAliasState) ∧
    Value.vnone ≠ Value.ts .TAINTED ∧
    (eval (.binop (.name "v") .const) taintedAliasState =
        .ok (.ts .UNTAINTED, taintedAliasState) ∧
      eval (.binop .const (.name "v")) taintedAliasState =
        .ok (.ts .UNTAINTED, taintedAliasState)) :=
  ⟨rfl, rfl, rfl, by simp,
   heap_alias_untainted_in_binop taintedAliasState taintedAliasState "v" "L"
     .const .vnone rfl rfl rfl (by simp)⟩
